import Mathlib

/-!
Verification of the `TokenVestingManager` Soroban contract
(`contracts/token_vesting_manager/src/lib.rs`).

Shallow embedding conventions:
* Addresses are opaque natural numbers.
* `soroban_sdk::U256` amounts are natural numbers below `2 ^ 256`; its
  arithmetic traps on overflow/underflow/division-by-zero, so the embedded
  operations return `Option ℕ` (`none` models the trap, which aborts the
  whole contract invocation).
* `u64` timestamp arithmetic only occurs behind guards that rule out
  underflow/overflow in the source, except the division by
  `release_interval_secs`, which truly traps when the interval is zero and
  is modelled with `u64Div`.  (`u32` admin-count arithmetic is checked,
  matching the overflow-checked release profile used for Soroban builds.)
* Persistent storage is a record of `Option`-valued cells (a missing cell
  models an absent storage key; reads use the source's `unwrap_or`
  defaults).  The `RECIPIENT_VESTINGS` cell can hold either host type that
  the source reads/writes at that key (`Vec<U256>` or
  `Map<Address, Vec<U256>>`); reading it at the wrong type models the host
  conversion panic.
* External token invocations are recorded as `TokenCall` values; their
  success is an oracle parameter (`transferOk`), since the token contract
  is an external collaborator.  All storage writes precede the token call
  in the source, and a failing call aborts the transaction, so a failing
  oracle simply fails the embedded operation.
-/

namespace StellarVesting

/-- Bound `2 ^ 256`, the first value not representable by `soroban_sdk::U256`. -/
def U256LIM : ℕ := 2 ^ 256

/-- Checked `U256` addition; traps (returns `none`) on overflow. -/
def uAdd (a b : ℕ) : Option ℕ := if a + b < U256LIM then some (a + b) else none

/-- Checked `U256` subtraction; traps on underflow. -/
def uSub (a b : ℕ) : Option ℕ := if b ≤ a then some (a - b) else none

/-- Checked `U256` multiplication; traps on overflow. -/
def uMul (a b : ℕ) : Option ℕ := if a * b < U256LIM then some (a * b) else none

/-- Checked `U256` division; traps on a zero divisor. -/
def uDiv (a b : ℕ) : Option ℕ := if b ≠ 0 then some (a / b) else none

/-- Checked `u64` division; traps on a zero divisor. -/
def u64Div (a b : ℕ) : Option ℕ := if b ≠ 0 then some (a / b) else none

theorem uAdd_eq_some {a b c : ℕ} : uAdd a b = some c ↔ a + b < U256LIM ∧ c = a + b := by
  simp [uAdd, eq_comm, Option.ite_none_right_eq_some]

theorem uSub_eq_some {a b c : ℕ} : uSub a b = some c ↔ b ≤ a ∧ c = a - b := by
  simp [uSub, eq_comm, Option.ite_none_right_eq_some]

theorem uMul_eq_some {a b c : ℕ} : uMul a b = some c ↔ a * b < U256LIM ∧ c = a * b := by
  simp [uMul, eq_comm, Option.ite_none_right_eq_some]

theorem uDiv_eq_some {a b c : ℕ} : uDiv a b = some c ↔ b ≠ 0 ∧ c = a / b := by
  simp [uDiv, eq_comm, Option.ite_none_right_eq_some]

theorem u64Div_eq_some {a b c : ℕ} : u64Div a b = some c ↔ b ≠ 0 ∧ c = a / b := by
  simp [u64Div, eq_comm, Option.ite_none_right_eq_some]

theorem uAdd_some {a b : ℕ} (h : a + b < U256LIM) : uAdd a b = some (a + b) := by
  simp [uAdd, h]

theorem uSub_some {a b : ℕ} (h : b ≤ a) : uSub a b = some (a - b) := by
  simp [uSub, h]

theorem uMul_some {a b : ℕ} (h : a * b < U256LIM) : uMul a b = some (a * b) := by
  simp [uMul, h]

theorem uDiv_some {a b : ℕ} (h : b ≠ 0) : uDiv a b = some (a / b) := by
  simp [uDiv, h]

theorem u64Div_some {a b : ℕ} (h : b ≠ 0) : u64Div a b = some (a / b) := by
  simp [u64Div, h]

/-- The `Vesting` record stored by the contract (`lib.rs` lines 34-48). -/
structure Vesting where
  recipient : ℕ
  start_timestamp : ℕ
  end_timestamp : ℕ
  deactivation_timestamp : ℕ
  timelock : ℕ
  release_interval_secs : ℕ
  cliff_release_timestamp : ℕ
  initial_unlock : ℕ
  cliff_amount : ℕ
  linear_vest_amount : ℕ
  claimed_amount : ℕ
deriving Repr, DecidableEq

/-- The source's `adjusted_reference_timestamp` after the deactivation clamp
(`lib.rs` 490-496). -/
def adj1 (v : Vesting) (t : ℕ) : ℕ :=
  if v.deactivation_timestamp ≠ 0 ∧ v.deactivation_timestamp < t
  then v.deactivation_timestamp else t

/-- The source's `adjusted_reference_timestamp` after the additional clamp to
`end_timestamp` (`lib.rs` 500-502). -/
def adj2 (v : Vesting) (t : ℕ) : ℕ :=
  if v.end_timestamp ≤ adj1 v t then v.end_timestamp else adj1 v t

/-- The source's local `start_timestamp` for the linear portion
(`lib.rs` 514-520). -/
def linStart (v : Vesting) : ℕ :=
  if v.cliff_release_timestamp ≠ 0 then v.cliff_release_timestamp
  else v.start_timestamp

/-- Embedding of `TokenVestingManager::calculate_vested_amount` (`lib.rs` 489-542),
with the source's `U256`/`u64` trap semantics made explicit. -/
def calculate_vested_amount (v : Vesting) (t : ℕ) : Option ℕ :=
  (if v.cliff_release_timestamp ≤ adj2 v t then uAdd 0 v.cliff_amount else some 0).bind
    fun amt1 =>
  -- the initial-unlock guard uses the UNCLAMPED reference timestamp `t`
  (if 0 < v.initial_unlock ∧ v.start_timestamp ≤ t
   then uAdd amt1 v.initial_unlock else some amt1).bind fun amt2 =>
  if linStart v < adj2 v t then
    (u64Div (adj2 v t - linStart v) v.release_interval_secs).bind fun q =>
    (uMul v.linear_vest_amount (q * v.release_interval_secs)).bind fun num =>
    (uDiv num (v.end_timestamp - linStart v)).bind fun lin =>
    uAdd amt2 lin
  else some amt2

/-- Total (mathematical) version of the vested-amount computation, a proof
device: whenever `calculate_vested_amount` succeeds it returns this value
(`calculate_vested_amount_eq_total`). -/
def vestedTotal (v : Vesting) (t : ℕ) : ℕ :=
  (if v.cliff_release_timestamp ≤ adj2 v t then v.cliff_amount else 0)
  + (if 0 < v.initial_unlock ∧ v.start_timestamp ≤ t then v.initial_unlock else 0)
  + (if linStart v < adj2 v t then
       v.linear_vest_amount
         * ((adj2 v t - linStart v) / v.release_interval_secs * v.release_interval_secs)
         / (v.end_timestamp - linStart v)
     else 0)

theorem calculate_vested_amount_eq_total (v : Vesting) (t : ℕ) (a : ℕ)
    (h : calculate_vested_amount v t = some a) : a = vestedTotal v t := by
  unfold calculate_vested_amount at h
  unfold vestedTotal
  by_cases h1 : v.cliff_release_timestamp ≤ adj2 v t <;>
    by_cases h2 : 0 < v.initial_unlock ∧ v.start_timestamp ≤ t <;>
      by_cases h3 : linStart v < adj2 v t <;>
        simp only [h1, h2, h3, and_self, and_true, true_and,
          if_true, if_false, ite_true, ite_false,
          Option.bind_eq_some, Option.some_bind, Option.some.injEq,
          uAdd_eq_some, uMul_eq_some, uDiv_eq_some, u64Div_eq_some,
          and_assoc, exists_and_left, exists_eq_left] at h ⊢ <;>
        omega

theorem adj1_mono (v : Vesting) {t₁ t₂ : ℕ} (h : t₁ ≤ t₂) : adj1 v t₁ ≤ adj1 v t₂ := by
  unfold adj1
  split <;> split <;> omega

theorem adj2_mono (v : Vesting) {t₁ t₂ : ℕ} (h : t₁ ≤ t₂) : adj2 v t₁ ≤ adj2 v t₂ := by
  have := adj1_mono v h
  unfold adj2
  split <;> split <;> omega

theorem vestedTotal_mono (v : Vesting) {t₁ t₂ : ℕ} (h : t₁ ≤ t₂) :
    vestedTotal v t₁ ≤ vestedTotal v t₂ := by
  have h2 := adj2_mono v h
  unfold vestedTotal
  have hc : (if v.cliff_release_timestamp ≤ adj2 v t₁ then v.cliff_amount else 0)
      ≤ (if v.cliff_release_timestamp ≤ adj2 v t₂ then v.cliff_amount else 0) := by
    split <;> split <;> omega
  have hi : (if 0 < v.initial_unlock ∧ v.start_timestamp ≤ t₁ then v.initial_unlock else 0)
      ≤ (if 0 < v.initial_unlock ∧ v.start_timestamp ≤ t₂ then v.initial_unlock else 0) := by
    split <;> split <;> omega
  have hl : (if linStart v < adj2 v t₁ then
        v.linear_vest_amount
          * ((adj2 v t₁ - linStart v) / v.release_interval_secs * v.release_interval_secs)
          / (v.end_timestamp - linStart v)
      else 0)
      ≤ (if linStart v < adj2 v t₂ then
        v.linear_vest_amount
          * ((adj2 v t₂ - linStart v) / v.release_interval_secs * v.release_interval_secs)
          / (v.end_timestamp - linStart v)
      else 0) := by
    split <;> split
    · have hsub : adj2 v t₁ - linStart v ≤ adj2 v t₂ - linStart v := by omega
      exact Nat.div_le_div_right
        (Nat.mul_le_mul_left _ (Nat.mul_le_mul_right _ (Nat.div_le_div_right hsub)))
    · omega
    · exact Nat.zero_le _
    · exact Nat.le_refl _
  exact Nat.add_le_add (Nat.add_le_add hc hi) hl

theorem adj1_pin (v : Vesting) {t : ℕ} (hd : v.deactivation_timestamp ≠ 0)
    (ht : v.deactivation_timestamp ≤ t) : adj1 v t = v.deactivation_timestamp := by
  unfold adj1
  split <;> omega

/-- Once revoked and past both the deactivation and the start timestamps, the
vested amount no longer depends on the reference timestamp. -/
theorem calc_pinned (v : Vesting) {t : ℕ} (hd : v.deactivation_timestamp ≠ 0)
    (h1 : v.deactivation_timestamp ≤ t) (h2 : v.start_timestamp ≤ t) :
    calculate_vested_amount v t
      = calculate_vested_amount v (max v.deactivation_timestamp v.start_timestamp) := by
  have e2 : adj2 v t = adj2 v (max v.deactivation_timestamp v.start_timestamp) := by
    unfold adj2
    rw [adj1_pin v hd h1, adj1_pin v hd (le_max_left _ _)]
  unfold calculate_vested_amount
  simp only [e2, h2, le_max_right, and_true]

/-- Modelled from the spec: the seven-step `VestingCalculator` algorithm of
spec §4.3, written step by step in the spec's own order and phrasing (clamps
as `min`, the three release components accumulated in the listed order, the
initial-unlock guard judged at the original unclamped `t`, truncating
division, multiply before divide), over the contract's 256-bit amount
arithmetic.  This is the refinement target that `calculate_vested_amount`
is compared against for C5. -/
def vestedAmountSpec (v : Vesting) (t : ℕ) : Option ℕ :=
  -- Step 1: if revoked, pull the reference time back to the revocation time.
  let t1 := if v.deactivation_timestamp ≠ 0 then min t v.deactivation_timestamp else t
  -- Step 3: clamp to the full-vesting deadline.
  let tc := min t1 v.end_timestamp
  -- Step 6: the linear origin.
  let s := if v.cliff_release_timestamp ≠ 0 then v.cliff_release_timestamp
           else v.start_timestamp
  -- Steps 2 and 4: start from zero and include the cliff when due.
  (if tc ≥ v.cliff_release_timestamp then uAdd 0 v.cliff_amount else some 0).bind fun acc1 =>
  -- Step 5: initial unlock, judged at the ORIGINAL (unclamped) `t`.
  (if v.initial_unlock > 0 ∧ t ≥ v.start_timestamp
   then uAdd acc1 v.initial_unlock else some acc1).bind fun acc2 =>
  -- Step 7: linear accrual in whole release intervals, truncating division,
  -- multiplying before dividing.
  if tc > s then
    (u64Div (tc - s) v.release_interval_secs).bind fun elapsedTrunc =>
    (uMul v.linear_vest_amount (elapsedTrunc * v.release_interval_secs)).bind fun scaled =>
    (uDiv scaled (v.end_timestamp - s)).bind fun linearPart =>
    uAdd acc2 linearPart
  else some acc2

theorem adj2_eq_min (v : Vesting) (t : ℕ) :
    adj2 v t
      = min (if v.deactivation_timestamp ≠ 0 then min t v.deactivation_timestamp else t)
          v.end_timestamp := by
  unfold adj2 adj1
  split_ifs <;> omega

/-- C5: `calculate_vested_amount` computes exactly the spec's seven-step
algorithm: clamp `t` to `deactivation_timestamp` (when nonzero) and then to
`end_timestamp` obtaining `t'`; add `cliff_amount` when
`t' ≥ cliff_release_timestamp`; add `initial_unlock` when
`initial_unlock > 0` and the original unclamped `t ≥ start_timestamp`; and
when `t'` exceeds the linear origin `s` (`cliff_release_timestamp` if
nonzero else `start_timestamp`), add
`linear_vest_amount * ((t' - s) / interval * interval) / (end_timestamp - s)`
with truncating integer division, multiplying before dividing. -/
theorem calculate_vested_amount_matches_spec (v : Vesting) (t : ℕ) :
    calculate_vested_amount v t = vestedAmountSpec v t := by
  unfold calculate_vested_amount vestedAmountSpec linStart
  simp only [← adj2_eq_min, ge_iff_le, gt_iff_lt]

/-- A schedule revoked before its start, with a nonzero initial unlock:
`deactivation_timestamp = 5 < start_timestamp = 10`, `initial_unlock = 7`. -/
def vC6cex : Vesting := ⟨0, 10, 100, 5, 0, 10, 0, 7, 0, 90, 0⟩

/-- C6 (amended): for a fixed schedule the vested amount is non-decreasing in
`t` on `[0, end_timestamp]`, and once revoked it is constant in `t` on
`[max(deactivation_timestamp, start_timestamp), ∞)` (constancy on all of
`[deactivation_timestamp, ∞)` fails when the schedule is revoked before
`start_timestamp` with a nonzero initial unlock, because the initial-unlock
guard uses the unclamped reference timestamp). -/
theorem vested_monotone_and_pinned_after_revoke (v : Vesting) (t₁ t₂ : ℕ) :
    (t₁ ≤ t₂ → t₂ ≤ v.end_timestamp →
      ∀ a b, calculate_vested_amount v t₁ = some a →
        calculate_vested_amount v t₂ = some b → a ≤ b)
    ∧ (v.deactivation_timestamp ≠ 0 →
      max v.deactivation_timestamp v.start_timestamp ≤ t₁ →
      max v.deactivation_timestamp v.start_timestamp ≤ t₂ →
      calculate_vested_amount v t₁ = calculate_vested_amount v t₂) := by
  constructor
  · intro h12 _ a b ha hb
    rw [calculate_vested_amount_eq_total v t₁ a ha,
        calculate_vested_amount_eq_total v t₂ b hb]
    exact vestedTotal_mono v h12
  · intro hd h1 h2
    rw [calc_pinned v hd (le_trans (le_max_left _ _) h1) (le_trans (le_max_right _ _) h1),
        calc_pinned v hd (le_trans (le_max_left _ _) h2) (le_trans (le_max_right _ _) h2)]

/-- C6 counterexample: `vC6cex` is revoked (`deactivation_timestamp = 5 ≠ 0`)
and both `5` and `10` lie in `[deactivation_timestamp, ∞)`, yet the vested
amount changes from `0` to `7` there, refuting constancy on
`[deactivation_timestamp, ∞)` as claimed. -/
theorem vested_constant_after_revoke_cex :
    vC6cex.deactivation_timestamp ≠ 0
    ∧ vC6cex.deactivation_timestamp ≤ 5 ∧ vC6cex.deactivation_timestamp ≤ 10
    ∧ calculate_vested_amount vC6cex 5 = some 0
    ∧ calculate_vested_amount vC6cex 10 = some 7 := by
  decide

/-- Witness for `vested_monotone_and_pinned_after_revoke` at `vC6cex`. -/
theorem vested_monotone_and_pinned_witness :
    ((20 : ℕ) ≤ 40 ∧ (40 : ℕ) ≤ vC6cex.end_timestamp
      ∧ (∀ a b, calculate_vested_amount vC6cex 20 = some a →
          calculate_vested_amount vC6cex 40 = some b → a ≤ b))
    ∧ (vC6cex.deactivation_timestamp ≠ 0
      ∧ calculate_vested_amount vC6cex 50 = calculate_vested_amount vC6cex 60) :=
  ⟨⟨by decide, by decide,
      (vested_monotone_and_pinned_after_revoke vC6cex 20 40).1 (by decide) (by decide)⟩,
   ⟨by decide,
      (vested_monotone_and_pinned_after_revoke vC6cex 50 60).2 (by decide) (by decide)
        (by decide)⟩⟩

/-- C7 (amended): for a non-revoked schedule satisfying the creation
invariants I1-I6, and whose amounts do not overflow `U256` arithmetic
(`initial_unlock + cliff_amount + linear_vest_amount < 2 ^ 256` and
`linear_vest_amount * (end_timestamp - s) < 2 ^ 256`), the vested amount at
`end_timestamp` is `initial_unlock + linear_vest_amount` without a cliff and
`initial_unlock + cliff_amount + linear_vest_amount` with one. -/
theorem vested_at_end_is_full_amount (v : Vesting)
    (hI1 : v.start_timestamp ≠ 0 ∧ v.start_timestamp < v.end_timestamp)
    (hI3 : v.cliff_amount + v.linear_vest_amount ≠ 0)
    (hI4 : v.release_interval_secs ≠ 0)
    (hI5 : v.cliff_release_timestamp = 0 →
      v.cliff_amount = 0
      ∧ (v.end_timestamp - v.start_timestamp) % v.release_interval_secs = 0)
    (hI6 : v.cliff_release_timestamp ≠ 0 →
      v.cliff_amount ≠ 0 ∧ v.start_timestamp ≤ v.cliff_release_timestamp
      ∧ v.cliff_release_timestamp < v.end_timestamp
      ∧ (v.end_timestamp - v.cliff_release_timestamp) % v.release_interval_secs = 0)
    (hact : v.deactivation_timestamp = 0)
    (hov1 : v.initial_unlock + v.cliff_amount + v.linear_vest_amount < U256LIM)
    (hov2 : v.linear_vest_amount * (v.end_timestamp - linStart v) < U256LIM) :
    calculate_vested_amount v v.end_timestamp =
      some (if v.cliff_release_timestamp = 0
        then v.initial_unlock + v.linear_vest_amount
        else v.initial_unlock + v.cliff_amount + v.linear_vest_amount) := by
  have ha : adj2 v v.end_timestamp = v.end_timestamp := by
    unfold adj2 adj1
    rw [hact]
    simp
  have hs : linStart v < v.end_timestamp := by
    unfold linStart
    split
    · exact (hI6 (by assumption)).2.2.1
    · exact hI1.2
  have hcle : v.cliff_release_timestamp ≤ v.end_timestamp := by
    by_cases hc : v.cliff_release_timestamp = 0
    · omega
    · exact le_of_lt (hI6 hc).2.2.1
  have hdvd : v.release_interval_secs ∣ (v.end_timestamp - linStart v) := by
    unfold linStart
    split
    · exact Nat.dvd_of_mod_eq_zero (hI6 (by assumption)).2.2.2
    · rename_i hc
      exact Nat.dvd_of_mod_eq_zero (hI5 (not_ne_iff.mp hc)).2
  have hq : (v.end_timestamp - linStart v) / v.release_interval_secs * v.release_interval_secs
      = v.end_timestamp - linStart v := Nat.div_mul_cancel hdvd
  have hse : v.start_timestamp ≤ v.end_timestamp := le_of_lt hI1.2
  unfold calculate_vested_amount
  rw [ha]
  simp only [hcle, hse, and_true, if_true, ite_true,
    uAdd_some (show 0 + v.cliff_amount < U256LIM by omega), Option.some_bind]
  by_cases hiu : 0 < v.initial_unlock
  · simp only [hiu, if_true, ite_true,
      uAdd_some (show 0 + v.cliff_amount + v.initial_unlock < U256LIM by omega),
      Option.some_bind, hs, u64Div_some hI4, hq, uMul_some hov2,
      uDiv_some (show v.end_timestamp - linStart v ≠ 0 by omega),
      Nat.mul_div_cancel _ (show 0 < v.end_timestamp - linStart v by omega)]
    rw [uAdd_some (by omega)]
    by_cases hc : v.cliff_release_timestamp = 0
    · have := (hI5 hc).1
      rw [if_pos hc]
      simp only [Option.some.injEq]
      omega
    · rw [if_neg hc]
      simp only [Option.some.injEq]
      omega
  · have hi0 : v.initial_unlock = 0 := by omega
    simp only [hiu, false_and, if_false, ite_false, Option.some_bind, hs, ite_true,
      u64Div_some hI4, hq, uMul_some hov2,
      uDiv_some (show v.end_timestamp - linStart v ≠ 0 by omega),
      Nat.mul_div_cancel _ (show 0 < v.end_timestamp - linStart v by omega)]
    rw [uAdd_some (by omega)]
    by_cases hc : v.cliff_release_timestamp = 0
    · have := (hI5 hc).1
      rw [if_pos hc]
      simp only [Option.some.injEq]
      omega
    · rw [if_neg hc]
      simp only [Option.some.injEq]
      omega

/-- A schedule meeting I1-I6 whose linear amount is `2 ^ 255` over a 4-second
duration: the multiply-before-divide step overflows `U256`. -/
def vC7cex : Vesting := ⟨0, 1, 5, 0, 0, 1, 0, 0, 0, 2 ^ 255, 0⟩

/-- C7 counterexample: `vC7cex` satisfies I1-I6 and is not revoked, yet
`calculate_vested_amount` at `end_timestamp` traps on `U256` overflow
(`2 ^ 255 * 4 ≥ 2 ^ 256`) instead of returning
`initial_unlock + linear_vest_amount`. -/
theorem vested_at_end_overflow_cex :
    (vC7cex.start_timestamp ≠ 0 ∧ vC7cex.start_timestamp < vC7cex.end_timestamp)
    ∧ vC7cex.cliff_amount + vC7cex.linear_vest_amount ≠ 0
    ∧ vC7cex.release_interval_secs ≠ 0
    ∧ vC7cex.cliff_release_timestamp = 0
    ∧ vC7cex.cliff_amount = 0
    ∧ (vC7cex.end_timestamp - vC7cex.start_timestamp) % vC7cex.release_interval_secs = 0
    ∧ vC7cex.deactivation_timestamp = 0
    ∧ calculate_vested_amount vC7cex vC7cex.end_timestamp = none
    ∧ calculate_vested_amount vC7cex vC7cex.end_timestamp
        ≠ some (vC7cex.initial_unlock + vC7cex.linear_vest_amount) := by
  decide

/-- Witness for `vested_at_end_is_full_amount` on a concrete schedule. -/
theorem vested_at_end_witness :
    calculate_vested_amount ⟨9, 1000, 2000, 0, 0, 10, 0, 5, 0, 100, 0⟩ 2000
      = some (5 + 100) :=
  vested_at_end_is_full_amount ⟨9, 1000, 2000, 0, 0, 10, 0, 5, 0, 100, 0⟩
    (by decide) (by decide) (by decide) (by decide) (by decide) (by decide)
    (by decide) (by decide)

/-! ## The Manager's persistent state and operations -/

/-- Bound `2 ^ 32`, the first value not representable by the `u32` admin count. -/
def U32LIM : ℕ := 2 ^ 32

/-- An argument of a cross-contract token invocation. -/
inductive CallArg
| addr (a : ℕ)
| amount (n : ℕ)
deriving Repr, DecidableEq

/-- A cross-contract token invocation: function name and argument vector,
exactly as passed to `env.invoke_contract`. -/
structure TokenCall where
  func : String
  args : List CallArg
deriving Repr, DecidableEq

/-- Modelled from the spec: the token collaborator's
`transfer(from, to, amount)` invocation (spec §6 token interface). -/
def sep41Transfer (src dst amt : ℕ) : TokenCall :=
  ⟨"transfer", [.addr src, .addr dst, .amount amt]⟩

/-- Abort causes: each `panic!`/`assert!`/trap in the source aborts the
invocation; the constructor names follow the spec's error taxonomy (§7).
`overflow` is a trapped `U256`/`u64`/`u32` arithmetic fault, `typeMismatch`
the host's conversion panic when a storage value is read at the wrong host
type, and `external` a failed token invocation. -/
inductive VmErr
| alreadyInitialized
| notAdmin
| alreadyInState
| lastAdmin
| invalidAmount
| invalidStart
| invalidInterval
| invalidCliffAmount
| invalidCliffRelease
| invalidIntervalLength
| notOwner
| timelockActive
| nothingToClaim
| unknownSchedule
| alreadyRevoked
| fullyClaimed
| overflow
| typeMismatch
| external
deriving Repr, DecidableEq

deriving instance DecidableEq for Except

/-- A source `assert!`/`panic!` guard: proceed when `cond` holds, abort with
`e` otherwise. -/
def guardE (cond : Prop) [Decidable cond] (e : VmErr) : Except VmErr Unit :=
  if cond then .ok () else .error e

/-- A trapped `U256`/`u64` arithmetic step: `none` (the trap) aborts the
invocation. -/
def liftU (x : Option ℕ) : Except VmErr ℕ :=
  match x with
  | some v => .ok v
  | none => .error .overflow

/-- A storage/map read whose `unwrap` panics with `e` when the value is
absent. -/
def liftLookup {α : Type} (x : Option α) (e : VmErr) : Except VmErr α :=
  match x with
  | some v => .ok v
  | none => .error e

/-- Propagate the first failed creation check. -/
def validateE (o : Option VmErr) : Except VmErr Unit :=
  match o with
  | some e => .error e
  | none => .ok ()

theorem bindE_eq_ok {ε α β : Type} {x : Except ε α} {f : α → Except ε β} {b : β} :
    x.bind f = .ok b ↔ ∃ a, x = .ok a ∧ f a = .ok b := by
  cases x <;> simp [Except.bind]

theorem guardE_eq_ok {c : Prop} [Decidable c] {e : VmErr} {u : Unit} :
    guardE c e = .ok u ↔ c := by
  by_cases h : c <;> simp [guardE, h]

theorem guardE_pos {c : Prop} [Decidable c] (e : VmErr) (h : c) :
    guardE c e = .ok () := by
  simp [guardE, h]

theorem liftU_eq_ok {x : Option ℕ} {v : ℕ} : liftU x = .ok v ↔ x = some v := by
  cases x <;> simp [liftU]

theorem liftLookup_eq_ok {α : Type} {x : Option α} {e : VmErr} {v : α} :
    liftLookup x e = .ok v ↔ x = some v := by
  cases x <;> simp [liftLookup]

theorem validateE_eq_ok {o : Option VmErr} {u : Unit} :
    validateE o = .ok u ↔ o = none := by
  cases o <;> simp [validateE]

theorem okE_bind {ε α β : Type} (a : α) (f : α → Except ε β) :
    (Except.ok a : Except ε α).bind f = f a := rfl

theorem errE_bind {ε α β : Type} (e : ε) (f : α → Except ε β) :
    (Except.error e : Except ε α).bind f = .error e := rfl

theorem guardE_neg {c : Prop} [Decidable c] (e : VmErr) (h : ¬ c) :
    guardE c e = .error e := by
  simp [guardE, h]

theorem liftU_some (v : ℕ) : liftU (some v) = .ok v := rfl

theorem liftLookup_some {α : Type} (v : α) (e : VmErr) :
    liftLookup (some v) e = .ok v := rfl

/-- The host value stored under the `RVESTINGS` key.  The source WRITES a
`Vec<U256>` there (`create_vesting`, lib.rs 261-270) but READS a
`Map<Address, Vec<U256>>` (`get_all_recipient_vestings`, `is_recipient`,
...); the cell therefore records which host type it currently holds. -/
inductive RVal
| vecV (ids : List ℕ)
| mapV (m : List (ℕ × List ℕ))
deriving Repr, DecidableEq

/-- The Manager's persistent storage: one `Option`-valued cell per storage
key (`none` = key absent). -/
structure VMState where
  admins : Option (List (ℕ × Bool))
  adminCount : Option ℕ
  tokenAddress : Option ℕ
  reserved : Option ℕ
  recipientVestings : Option RVal
  vestingById : Option (List (ℕ × Vesting))
  nonce : Option ℕ
  recipients : Option (List ℕ)
deriving Repr, DecidableEq

/-- Lookup in an association list (Soroban `Map::get`). -/
def alookup {α : Type} : List (ℕ × α) → ℕ → Option α
  | [], _ => none
  | (k, v) :: t, k₀ => if k₀ = k then some v else alookup t k₀

/-- Insert-or-replace in an association list (Soroban `Map::set`). -/
def aset {α : Type} : List (ℕ × α) → ℕ → α → List (ℕ × α)
  | [], k₀, v₀ => [(k₀, v₀)]
  | (k, v) :: t, k₀, v₀ => if k₀ = k then (k₀, v₀) :: t else (k, v) :: aset t k₀ v₀

/-- The Manager contract's own address (`env.current_contract_address()`),
an opaque constant. -/
def managerSelf : ℕ := 0

/-- Embedding of `TokenVestingManager::init` (lib.rs 70-84). -/
def init (s : VMState) (factory_caller token_address : ℕ) : Except VmErr VMState :=
  if s.admins.isSome then .error .alreadyInitialized
  else .ok { admins := some [(factory_caller, true)], adminCount := some 1,
             tokenAddress := some token_address, reserved := none,
             recipientVestings := none, vestingById := none, nonce := none,
             recipients := none }

/-- The state right after a successful `init`. -/
def initState (factory_caller token_address : ℕ) : VMState :=
  { admins := some [(factory_caller, true)], adminCount := some 1,
    tokenAddress := some token_address, reserved := none,
    recipientVestings := none, vestingById := none, nonce := none,
    recipients := none }

/-- The access-control check shared by every privileged operation
(`if !admins.get(caller).is_some() { panic!("Not an admin") }`): note that it
tests map MEMBERSHIP, not the stored boolean. -/
def adminGate (s : VMState) (caller : ℕ) : Bool :=
  (alookup (s.admins.getD []) caller).isSome

/-- Embedding of `TokenVestingManager::is_admin` (lib.rs 133-141). -/
def is_admin (s : VMState) (address : ℕ) : Bool :=
  (alookup (s.admins.getD []) address).getD false

/-- Embedding of `TokenVestingManager::get_admins_count` (lib.rs 128-130). -/
def get_admins_count (s : VMState) : ℕ := s.adminCount.getD 0

/-- Embedding of `TokenVestingManager::set_admin` (lib.rs 87-125). -/
def set_admin (s : VMState) (caller admin : ℕ) (is_enabled : Bool) :
    Except VmErr VMState :=
  (guardE (adminGate s caller = true) .notAdmin).bind fun _ =>
  -- `assert!(admins.get(admin).unwrap_or(!is_enabled) != is_enabled)`
  (guardE (((alookup (s.admins.getD []) admin).getD (!is_enabled)) ≠ is_enabled)
    .alreadyInState).bind fun _ =>
  let admin_count := s.adminCount.getD 0
  if is_enabled then
    (guardE (admin_count + 1 < U32LIM) .overflow).bind fun _ =>
    .ok { s with admins := some (aset (s.admins.getD []) admin is_enabled),
                 adminCount := some (admin_count + 1) }
  else
    -- `assert!(admin_count > 1, "There must always be at least 1 admin")`
    (guardE (1 < admin_count) .lastAdmin).bind fun _ =>
    .ok { s with admins := some (aset (s.admins.getD []) admin is_enabled),
                 adminCount := some (admin_count - 1) }

/-- Read the `RVESTINGS` cell at type `Map<Address, Vec<U256>>`; the host
traps if the cell holds a `Vec`. -/
def readRVAsMap (s : VMState) : Except VmErr (List (ℕ × List ℕ)) :=
  match s.recipientVestings with
  | none => .ok []
  | some (.mapV m) => .ok m
  | some (.vecV _) => .error .typeMismatch

/-- Read the `RVESTINGS` cell at type `Vec<U256>`; the host traps if the
cell holds a `Map`. -/
def readRVAsVec (s : VMState) : Except VmErr (List ℕ) :=
  match s.recipientVestings with
  | none => .ok []
  | some (.vecV l) => .ok l
  | some (.mapV _) => .error .typeMismatch

/-- Embedding of `TokenVestingManager::get_all_recipient_vestings` (lib.rs 677-685). -/
def get_all_recipient_vestings (s : VMState) (recipient : ℕ) :
    Except VmErr (List ℕ) :=
  (readRVAsMap s).map fun m => (alookup m recipient).getD []

/-- Embedding of `TokenVestingManager::get_all_recipient_vestings_len` (lib.rs 707-718). -/
def get_all_recipient_vestings_len (s : VMState) (recipient : ℕ) :
    Except VmErr ℕ :=
  (readRVAsMap s).map fun m => ((alookup m recipient).getD []).length

/-- Embedding of `TokenVestingManager::is_recipient` (lib.rs 721-731). -/
def is_recipient (s : VMState) (recipient : ℕ) : Except VmErr Bool :=
  (readRVAsMap s).map fun m => ((alookup m recipient).getD []).length != 0

/-- Embedding of `TokenVestingManager::get_all_recipients` (lib.rs 647-652). -/
def get_all_recipients (s : VMState) : List ℕ := s.recipients.getD []

/-- Embedding of `TokenVestingManager::get_tokens_reserved_for_vesting` (lib.rs 742-747). -/
def get_tokens_reserved_for_vesting (s : VMState) : ℕ := s.reserved.getD 0

/-- The `assert!` chain of `create_vesting` (lib.rs 169-202), returning the
first violated check. -/
def createValidationErr (start_timestamp end_timestamp cliff_release_timestamp
    cliff_amount linear_vest_amount release_interval_secs : ℕ) : Option VmErr :=
  match uAdd linear_vest_amount cliff_amount with
  | none => some .overflow
  | some lc =>
    if lc = 0 then some .invalidAmount
    else if ¬ (start_timestamp ≠ 0 ∧ start_timestamp < end_timestamp) then
      some .invalidStart
    else if release_interval_secs = 0 then some .invalidInterval
    else if cliff_release_timestamp = 0 then
      if cliff_amount ≠ 0 then some .invalidCliffAmount
      else if (end_timestamp - start_timestamp) % release_interval_secs ≠ 0 then
        some .invalidIntervalLength
      else none
    else
      if cliff_amount = 0 then some .invalidCliffAmount
      else if ¬ (start_timestamp ≤ cliff_release_timestamp
                 ∧ cliff_release_timestamp < end_timestamp) then
        some .invalidCliffRelease
      else if (end_timestamp - cliff_release_timestamp) % release_interval_secs ≠ 0 then
        some .invalidIntervalLength
      else none

/-- Embedding of `TokenVestingManager::create_vesting` (lib.rs 144-293).  Returns the new
state, the assigned vesting id and the outgoing token invocation.
`transferOk` is the external token's verdict on that invocation; all storage
writes precede it in the source and are rolled back by the host when it
fails, so a failing oracle fails the whole operation. -/
def create_vesting (s : VMState) (caller recipient : ℕ)
    (start_timestamp end_timestamp timelock initial_unlock cliff_release_timestamp
     cliff_amount release_interval_secs linear_vest_amount : ℕ)
    (transferOk : Bool) : Except VmErr (VMState × ℕ × TokenCall) :=
  (guardE (adminGate s caller = true) .notAdmin).bind fun _ =>
  (validateE (createValidationErr start_timestamp end_timestamp
    cliff_release_timestamp cliff_amount linear_vest_amount
    release_interval_secs)).bind fun _ =>
  (liftU (uAdd initial_unlock cliff_amount)).bind fun ic =>
  (liftU (uAdd ic linear_vest_amount)).bind fun total_expected_amount =>
  (liftU (uAdd (s.reserved.getD 0) total_expected_amount)).bind fun reserved_tokens =>
  let vesting : Vesting :=
    { recipient := recipient, start_timestamp := start_timestamp,
      end_timestamp := end_timestamp, deactivation_timestamp := 0,
      timelock := timelock, release_interval_secs := release_interval_secs,
      cliff_release_timestamp := cliff_release_timestamp,
      initial_unlock := initial_unlock, cliff_amount := cliff_amount,
      linear_vest_amount := linear_vest_amount, claimed_amount := 0 }
  let vesting_id := s.nonce.getD 0
  (liftU (uAdd vesting_id 1)).bind fun new_vesting_id =>
  -- lib.rs 239: `is_recipient` reads the `RVESTINGS` key as a Map
  (is_recipient s recipient).bind fun isRec =>
  let recipients := if isRec then s.recipients.getD []
                    else (s.recipients.getD []) ++ [recipient]
  let vesting_by_id := aset (s.vestingById.getD []) vesting_id vesting
  -- lib.rs 261: the SAME key is then read (and written) as a Vec
  (readRVAsVec s).bind fun rv =>
  (guardE (transferOk = true) .external).bind fun _ =>
  .ok ({ s with reserved := some reserved_tokens,
                nonce := some new_vesting_id,
                recipients := some recipients,
                vestingById := some vesting_by_id,
                recipientVestings := some (.vecV (rv ++ [vesting_id])) },
       vesting_id,
       ⟨"transfer_from",
        [.addr caller, .addr managerSelf, .amount total_expected_amount]⟩)

/-- Embedding of `TokenVestingManager::claim` (lib.rs 360-423); `now` is
`env.ledger().timestamp()`.  Returns the claimable amount moved and the
outgoing token invocation (lib.rs 418-422: `transfer` with the two
arguments `caller` and `claimable`). -/
def claim (s : VMState) (caller vesting_id now : ℕ) (transferOk : Bool) :
    Except VmErr (VMState × ℕ × TokenCall) :=
  -- `get_vesting_info` unwraps the map lookup (lib.rs 635-644)
  (liftLookup (alookup (s.vestingById.getD []) vesting_id) .unknownSchedule).bind
    fun vesting =>
  (guardE (vesting.recipient = caller) .notOwner).bind fun _ =>
  (guardE (vesting.timelock ≤ now) .timelockActive).bind fun _ =>
  (liftU (calculate_vested_amount vesting now)).bind fun vest_amount =>
  (liftU (uSub vest_amount vesting.claimed_amount)).bind fun claimable =>
  (guardE (claimable ≠ 0) .nothingToClaim).bind fun _ =>
  (liftU (uAdd vesting.claimed_amount claimable)).bind fun claimed' =>
  (liftU (uSub (s.reserved.getD 0) claimable)).bind fun reserved_tokens =>
  (guardE (transferOk = true) .external).bind fun _ =>
  .ok ({ s with
          vestingById := some (aset (s.vestingById.getD []) vesting_id
            { vesting with claimed_amount := claimed' }),
          reserved := some reserved_tokens },
       claimable, ⟨"transfer", [.addr caller, .amount claimable]⟩)

/-- Embedding of `TokenVestingManager::revoke_vesting` (lib.rs 426-486); `now` is
`env.ledger().timestamp()`.  Returns the forfeited remainder subtracted
from `reserved`.  No token movement occurs. -/
def revoke_vesting (s : VMState) (caller vesting_id now : ℕ) :
    Except VmErr (VMState × ℕ) :=
  (guardE (adminGate s caller = true) .notAdmin).bind fun _ =>
  (liftLookup (alookup (s.vestingById.getD []) vesting_id) .unknownSchedule).bind
    fun vesting =>
  (guardE (vesting.deactivation_timestamp = 0) .alreadyRevoked).bind fun _ =>
  (liftU (calculate_vested_amount vesting vesting.end_timestamp)).bind
    fun final_vest_amount =>
  (guardE (final_vest_amount ≠ vesting.claimed_amount) .fullyClaimed).bind fun _ =>
  -- the second calculation runs on the record with the deactivation set
  (liftU (calculate_vested_amount
    { vesting with deactivation_timestamp := now } now)).bind fun vested_amount_now =>
  (liftU (uSub final_vest_amount vested_amount_now)).bind fun amount_remaining =>
  (liftU (uSub (s.reserved.getD 0) amount_remaining)).bind fun reserved_tokens =>
  .ok ({ s with
          vestingById := some (aset (s.vestingById.getD []) vesting_id
            { vesting with deactivation_timestamp := now }),
          reserved := some reserved_tokens },
       amount_remaining)

/-! ## C1, C2, C3, C8: concrete executions exhibiting the divergences -/

/-- State after `init(1, 3)` and `set_admin(1, 2, true)`. -/
def c1Mid : VMState :=
  { admins := some [(1, true), (2, true)], adminCount := some 2,
    tokenAddress := some 3, reserved := none, recipientVestings := none,
    vestingById := none, nonce := none, recipients := none }

/-- State after additionally disabling admin `2`: the entry `(2, false)`
REMAINS in the map. -/
def c1State : VMState :=
  { admins := some [(1, true), (2, false)], adminCount := some 1,
    tokenAddress := some 3, reserved := none, recipientVestings := none,
    vestingById := none, nonce := none, recipients := none }

/-- C1: in the reachable state `c1State` (init; enable `2`; disable `2`),
address `2` has `is_admin = false`, yet it still passes the privileged-op
gate and both `set_admin` and `create_vesting` called by `2` SUCCEED instead
of failing with `NotAdmin`: the gate tests map membership
(`admins.get(caller).is_some()`) while disabling stores `false` instead of
removing the entry. -/
theorem disabled_admin_passes_privileged_gate :
    set_admin (initState 1 3) 1 2 true = .ok c1Mid
    ∧ set_admin c1Mid 1 2 false = .ok c1State
    ∧ is_admin c1State 2 = false
    ∧ adminGate c1State 2 = true
    ∧ (set_admin c1State 2 4 true).isOk = true
    ∧ (create_vesting c1State 2 5 1000 2000 0 0 0 0 10 1000 true).isOk = true := by
  decide

/-- The `Vesting` record created in the C2 scenario. -/
def vC2 : Vesting := ⟨2, 1000, 2000, 0, 0, 10, 0, 0, 0, 1000, 0⟩

/-- State after `init(1, 3)` and one successful
`create_vesting(caller 1, recipient 2, ...)`: the `RVESTINGS` key now holds
a `Vec` (`.vecV [0]`). -/
def c2State : VMState :=
  { admins := some [(1, true)], adminCount := some 1, tokenAddress := some 3,
    reserved := some 1000, recipientVestings := some (.vecV [0]),
    vestingById := some [(0, vC2)], nonce := some 1, recipients := some [2] }

/-- C2: after a successful `create_vesting` for recipient `2` returning id
`0`, reading the recipient's schedules traps on a host type mismatch
(`Vec` stored where the getters expect a `Map<Address, Vec<U256>>`):
`get_all_recipient_vestings(2)`, `get_all_recipient_vestings_len(2)` and
`is_recipient(2)` all abort instead of reporting `[0]`, `1`, `true`, and a
second `create_vesting` aborts inside its own `is_recipient` call. -/
theorem recipient_vestings_unreadable_after_create :
    create_vesting (initState 1 3) 1 2 1000 2000 0 0 0 0 10 1000 true
      = .ok (c2State, 0, ⟨"transfer_from", [.addr 1, .addr managerSelf, .amount 1000]⟩)
    ∧ get_all_recipient_vestings c2State 2 = .error .typeMismatch
    ∧ get_all_recipient_vestings_len c2State 2 = .error .typeMismatch
    ∧ is_recipient c2State 2 = .error .typeMismatch
    ∧ create_vesting c2State 1 2 1000 2000 0 0 0 0 10 1000 true
      = .error .typeMismatch := by
  decide

/-- The `Vesting` record created in the C3 scenario. -/
def vC3 : Vesting := ⟨6, 1000, 2000, 0, 0, 10, 0, 0, 0, 1000, 0⟩

/-- State after `init(1, 3)` and `create_vesting(caller 1, recipient 6, ...)`. -/
def c3Mid : VMState :=
  { admins := some [(1, true)], adminCount := some 1, tokenAddress := some 3,
    reserved := some 1000, recipientVestings := some (.vecV [0]),
    vestingById := some [(0, vC3)], nonce := some 1, recipients := some [6] }

/-- State after recipient `6` claims the fully vested `1000` at `t = 2000`. -/
def c3End : VMState :=
  { admins := some [(1, true)], adminCount := some 1, tokenAddress := some 3,
    reserved := some 0, recipientVestings := some (.vecV [0]),
    vestingById := some [(0, ⟨6, 1000, 2000, 0, 0, 10, 0, 0, 0, 1000, 1000⟩)],
    nonce := some 1, recipients := some [6] }

/-- C3: a successful `claim` emits the token invocation
`transfer(caller, claimable)` with only TWO arguments — the `from = self`
address required by the spec's `transfer(from, to, amount)` token interface
is missing — so the invocation differs from the spec-mandated
`sep41Transfer managerSelf caller claimable` (arity 2 vs 3). -/
theorem claim_transfer_call_lacks_from_argument :
    create_vesting (initState 1 3) 1 6 1000 2000 0 0 0 0 10 1000 true
      = .ok (c3Mid, 0, ⟨"transfer_from", [.addr 1, .addr managerSelf, .amount 1000]⟩)
    ∧ claim c3Mid 6 0 2000 true
      = .ok (c3End, 1000, ⟨"transfer", [.addr 6, .amount 1000]⟩)
    ∧ (⟨"transfer", [.addr 6, .amount 1000]⟩ : TokenCall).args.length = 2
    ∧ (sep41Transfer managerSelf 6 1000).args.length = 3
    ∧ (⟨"transfer", [.addr 6, .amount 1000]⟩ : TokenCall)
        ≠ sep41Transfer managerSelf 6 1000 := by
  decide

/-- The state produced by a successful `create_vesting` on a freshly
initialized Manager (admin `A`, token `T`). -/
def c10State (A T r start_timestamp end_timestamp timelock initial_unlock
    cliff_release_timestamp cliff_amount release_interval_secs
    linear_vest_amount : ℕ) : VMState :=
  { admins := some [(A, true)], adminCount := some 1, tokenAddress := some T,
    reserved := some (initial_unlock + cliff_amount + linear_vest_amount),
    recipientVestings := some (.vecV [0]),
    vestingById := some [(0,
      ⟨r, start_timestamp, end_timestamp, 0, timelock, release_interval_secs,
       cliff_release_timestamp, initial_unlock, cliff_amount,
       linear_vest_amount, 0⟩)],
    nonce := some 1, recipients := some [r] }

/-- C10: `create_vesting` never validates `timelock`: on a fresh Manager,
for every parameter vector passing the I1-I6 checks and EVERY `timelock`
value (including `timelock > end_timestamp`), the call succeeds, stores the
timelock unchanged, counts the full amount in `reserved` — and `claim` at
any time `now < timelock` fails with `TimelockActive`. -/
theorem create_vesting_accepts_any_timelock
    (A T r start_timestamp end_timestamp timelock initial_unlock
     cliff_release_timestamp cliff_amount release_interval_secs
     linear_vest_amount : ℕ)
    (hval : createValidationErr start_timestamp end_timestamp
      cliff_release_timestamp cliff_amount linear_vest_amount
      release_interval_secs = none)
    (hov : initial_unlock + cliff_amount + linear_vest_amount < U256LIM) :
    create_vesting (initState A T) A r start_timestamp end_timestamp timelock
      initial_unlock cliff_release_timestamp cliff_amount
      release_interval_secs linear_vest_amount true
      = .ok (c10State A T r start_timestamp end_timestamp timelock
          initial_unlock cliff_release_timestamp cliff_amount
          release_interval_secs linear_vest_amount, 0,
          ⟨"transfer_from", [.addr A, .addr managerSelf,
            .amount (initial_unlock + cliff_amount + linear_vest_amount)]⟩)
    ∧ get_tokens_reserved_for_vesting (c10State A T r start_timestamp
        end_timestamp timelock initial_unlock cliff_release_timestamp
        cliff_amount release_interval_secs linear_vest_amount)
      = initial_unlock + cliff_amount + linear_vest_amount
    ∧ (∀ now, now < timelock →
        claim (c10State A T r start_timestamp end_timestamp timelock
          initial_unlock cliff_release_timestamp cliff_amount
          release_interval_secs linear_vest_amount) r 0 now true
        = .error .timelockActive) := by
  refine ⟨?_, rfl, ?_⟩
  · have hg : adminGate (initState A T) A = true := by
      simp [adminGate, initState, alookup]
    unfold create_vesting
    rw [hval]
    simp only [initState, Option.getD_none, Option.getD_some, validateE,
      guardE_pos _ hg, okE_bind,
      uAdd_some (show initial_unlock + cliff_amount < U256LIM by omega),
      uAdd_some (show initial_unlock + cliff_amount + linear_vest_amount < U256LIM
        by omega),
      uAdd_some (show (0 : ℕ) + (initial_unlock + cliff_amount + linear_vest_amount)
        < U256LIM by omega),
      uAdd_some (show (0 : ℕ) + 1 < U256LIM by norm_num [U256LIM]),
      liftU_some, is_recipient, readRVAsMap, readRVAsVec, Except.map,
      guardE_pos _ (rfl : true = true)]
    simp [c10State, aset, alookup, guardE, adminGate, okE_bind]
  · intro now hnow
    unfold claim
    simp [c10State, alookup, liftLookup_some, okE_bind, guardE_pos, guardE,
      errE_bind, show ¬ (timelock ≤ now) from by omega]

/-- Witness for `create_vesting_accepts_any_timelock`, with
`timelock = 5000 > end_timestamp = 2000` and a claim attempt at `4999`. -/
theorem create_vesting_accepts_any_timelock_witness :
    create_vesting (initState 1 3) 1 2 1000 2000 5000 0 0 0 10 1000 true
      = .ok (c10State 1 3 2 1000 2000 5000 0 0 0 10 1000, 0,
          ⟨"transfer_from", [.addr 1, .addr managerSelf, .amount (0 + 0 + 1000)]⟩)
    ∧ claim (c10State 1 3 2 1000 2000 5000 0 0 0 10 1000) 2 0 4999 true
      = .error .timelockActive :=
  ⟨(create_vesting_accepts_any_timelock 1 3 2 1000 2000 5000 0 0 0 10 1000
      (by decide) (by decide)).1,
   (create_vesting_accepts_any_timelock 1 3 2 1000 2000 5000 0 0 0 10 1000
      (by decide) (by decide)).2.2 4999 (by decide)⟩

/-- State after `init(1, 9)` and `set_admin(1, 4, true)`. -/
def c8Mid : VMState :=
  { admins := some [(1, true), (4, true)], adminCount := some 2,
    tokenAddress := some 9, reserved := none, recipientVestings := none,
    vestingById := none, nonce := none, recipients := none }

/-- State after additionally "disabling" the never-seen address `7`. -/
def c8End : VMState :=
  { admins := some [(1, true), (4, true), (7, false)], adminCount := some 1,
    tokenAddress := some 9, reserved := none, recipientVestings := none,
    vestingById := none, nonce := none, recipients := none }

/-- C8: disabling a target that is NOT currently an admin does not always
fail with `AlreadyInState`: for a never-stored target (`is_admin 7 = false`,
equal to the requested flag `false`) the check
`admins.get(admin).unwrap_or(!is_enabled) != is_enabled` passes, the call
SUCCEEDS, stores `(7, false)` and decrements the admin count from 2 to 1 —
after which `7` even passes the membership-based privileged gate. -/
theorem set_admin_disable_unknown_target_succeeds :
    set_admin (initState 1 9) 1 4 true = .ok c8Mid
    ∧ is_admin c8Mid 7 = false
    ∧ set_admin c8Mid 1 7 false = .ok c8End
    ∧ get_admins_count c8End = 1
    ∧ is_admin c8End 7 = false
    ∧ adminGate c8End 7 = true := by
  decide

/-! ## Operation traces with ghost forfeiture accounting (C4, C9) -/

/-- A state-mutating Manager operation (the operations that do not write
storage — the queries and the two withdrawals — cannot affect the
invariants below). -/
inductive Op
| opSetAdmin (caller admin : ℕ) (is_enabled : Bool)
| opCreate (caller recipient start_timestamp end_timestamp timelock
    initial_unlock cliff_release_timestamp cliff_amount release_interval_secs
    linear_vest_amount : ℕ) (transferOk : Bool)
| opClaim (caller vesting_id now : ℕ) (transferOk : Bool)
| opRevoke (caller vesting_id now : ℕ)
deriving Repr, DecidableEq

/-- The Manager state together with the ghost per-schedule cumulative
forfeited-on-revoke amounts. -/
structure GState where
  vm : VMState
  forfeited : List (ℕ × ℕ)
deriving Repr, DecidableEq

/-- One successful operation; `none` when the operation aborts.  A revoke
adds the amount it subtracted from `reserved` to the schedule's ghost
forfeiture. -/
def stepOp (g : GState) : Op → Option GState
  | .opSetAdmin c a en =>
    match set_admin g.vm c a en with
    | .ok s' => some ⟨s', g.forfeited⟩
    | .error _ => none
  | .opCreate c r st en tl iu ct ca ri lv ok =>
    match create_vesting g.vm c r st en tl iu ct ca ri lv ok with
    | .ok (s', _, _) => some ⟨s', g.forfeited⟩
    | .error _ => none
  | .opClaim c id now ok =>
    match claim g.vm c id now ok with
    | .ok (s', _, _) => some ⟨s', g.forfeited⟩
    | .error _ => none
  | .opRevoke c id now =>
    match revoke_vesting g.vm c id now with
    | .ok (s', forfeit) =>
      some ⟨s', aset g.forfeited id ((alookup g.forfeited id).getD 0 + forfeit)⟩
    | .error _ => none

/-- Run a list of operations, all of which must succeed. -/
def execTrace : GState → List Op → Option GState
  | g, [] => some g
  | g, o :: rest =>
    match stepOp g o with
    | some g' => execTrace g' rest
    | none => none

/-- Ghost state of a freshly initialized Manager. -/
def initG (factory_caller token_address : ℕ) : GState :=
  ⟨initState factory_caller token_address, []⟩

/-- A schedule's contribution to the reserved-balance ledger:
`initial_unlock + cliff_amount + linear_vest_amount - claimed_amount -
forfeited_on_revoke`, over ℤ. -/
def vterm (forf : List (ℕ × ℕ)) (p : ℕ × Vesting) : ℤ :=
  (p.2.initial_unlock : ℤ) + (p.2.cliff_amount : ℤ) + (p.2.linear_vest_amount : ℤ)
    - (p.2.claimed_amount : ℤ) - ((alookup forf p.1).getD 0 : ℤ)

/-- Sum of all schedules' contributions. -/
def vsum (forf : List (ℕ × ℕ)) (vb : List (ℕ × Vesting)) : ℤ :=
  (vb.map (vterm forf)).sum

theorem alookup_eq_none {α : Type} (l : List (ℕ × α)) (k : ℕ) :
    alookup l k = none ↔ k ∉ l.map Prod.fst := by
  induction l with
  | nil => simp [alookup]
  | cons p t ih =>
    obtain ⟨k₀, v₀⟩ := p
    by_cases hk : k = k₀ <;> simp [alookup, hk, ih]

theorem alookup_aset_self {α : Type} (l : List (ℕ × α)) (k : ℕ) (v : α) :
    alookup (aset l k v) k = some v := by
  induction l with
  | nil => simp [aset, alookup]
  | cons p t ih =>
    obtain ⟨k₀, v₀⟩ := p
    by_cases hk : k = k₀ <;> simp [aset, alookup, hk, ih]

theorem alookup_aset_ne {α : Type} (l : List (ℕ × α)) (k k' : ℕ) (v : α)
    (h : k' ≠ k) : alookup (aset l k v) k' = alookup l k' := by
  induction l with
  | nil => simp [aset, alookup, h]
  | cons p t ih =>
    obtain ⟨k₀, v₀⟩ := p
    by_cases hk : k = k₀
    · subst hk
      simp [aset, alookup, h]
    · by_cases hk' : k' = k₀ <;> simp [aset, alookup, hk, hk', ih]

theorem aset_fresh {α : Type} (l : List (ℕ × α)) (k : ℕ) (v : α)
    (h : alookup l k = none) : aset l k v = l ++ [(k, v)] := by
  induction l with
  | nil => simp [aset]
  | cons p t ih =>
    obtain ⟨k₀, v₀⟩ := p
    by_cases hk : k = k₀
    · simp [alookup, hk] at h
    · simp [alookup, hk] at h
      simp [aset, hk, ih h]

theorem keys_aset_of_lookup_some {α : Type} (l : List (ℕ × α)) (k : ℕ) (v w : α)
    (h : alookup l k = some w) :
    (aset l k v).map Prod.fst = l.map Prod.fst := by
  induction l with
  | nil => simp [alookup] at h
  | cons p t ih =>
    obtain ⟨k₀, v₀⟩ := p
    by_cases hk : k = k₀
    · simp [aset, hk]
    · simp [alookup, hk] at h
      simp [aset, hk, ih h]

theorem vsum_append (forf : List (ℕ × ℕ)) (l₁ l₂ : List (ℕ × Vesting)) :
    vsum forf (l₁ ++ l₂) = vsum forf l₁ + vsum forf l₂ := by
  simp [vsum]

theorem vsum_aset_replace (forf : List (ℕ × ℕ)) (vb : List (ℕ × Vesting))
    (k : ℕ) (v w : Vesting) (h : alookup vb k = some w) :
    vsum forf (aset vb k v) = vsum forf vb - vterm forf (k, w) + vterm forf (k, v) := by
  induction vb with
  | nil => simp [alookup] at h
  | cons p t ih =>
    obtain ⟨k₀, v₀⟩ := p
    by_cases hk : k = k₀
    · subst hk
      simp [alookup] at h
      subst h
      simp [aset, vsum]
      ring
    · simp [alookup, hk] at h
      simp [aset, hk, vsum] at ih ⊢
      rw [ih h]
      ring

theorem vsum_forf_aset_notin (forf : List (ℕ × ℕ)) (t : List (ℕ × Vesting))
    (k x : ℕ) (h : k ∉ t.map Prod.fst) :
    vsum (aset forf k x) t = vsum forf t := by
  induction t with
  | nil => simp [vsum]
  | cons p t ih =>
    obtain ⟨k₀, v₀⟩ := p
    simp at h
    simp [vsum, vterm, alookup_aset_ne forf k k₀ x (by tauto)] at ih ⊢
    rw [ih h.2]

theorem vsum_forf_aset (forf : List (ℕ × ℕ)) (vb : List (ℕ × Vesting))
    (k x : ℕ) (w : Vesting) (hnodup : (vb.map Prod.fst).Nodup)
    (hw : alookup vb k = some w) :
    vsum (aset forf k x) vb
      = vsum forf vb + ((alookup forf k).getD 0 : ℤ) - (x : ℤ) := by
  induction vb with
  | nil => simp [alookup] at hw
  | cons p t ih =>
    obtain ⟨k₀, v₀⟩ := p
    rw [List.map_cons, List.nodup_cons] at hnodup
    by_cases hk : k = k₀
    · subst hk
      have ht : vsum (aset forf k x) t = vsum forf t :=
        vsum_forf_aset_notin forf t k x hnodup.1
      simp [vsum, vterm, alookup_aset_self] at ht ⊢
      rw [ht]
      ring
    · simp [alookup, hk] at hw
      have := ih hnodup.2 hw
      simp [vsum, vterm, alookup_aset_ne forf k k₀ x (by tauto)] at this ⊢
      rw [this]
      ring

/-- What a successful `set_admin` does to the state. -/
theorem set_admin_ok {s s' : VMState} {c a : ℕ} {en : Bool}
    (h : set_admin s c a en = .ok s') :
    s'.reserved = s.reserved ∧ s'.vestingById = s.vestingById
    ∧ s'.nonce = s.nonce
    ∧ ((en = true ∧ s'.adminCount = some (s.adminCount.getD 0 + 1))
       ∨ (en = false ∧ 1 < s.adminCount.getD 0
          ∧ s'.adminCount = some (s.adminCount.getD 0 - 1))) := by
  unfold set_admin at h
  cases en <;>
    simp only [bindE_eq_ok, guardE_eq_ok, exists_and_left, exists_const, and_assoc,
      Except.ok.injEq, Bool.false_eq_true, if_false, if_true, ite_true, ite_false] at h <;>
    obtain ⟨-, -, hc, hs⟩ := h <;> subst hs <;> simp_all

/-- What a successful `create_vesting` does to the state. -/
theorem create_vesting_ok {s s' : VMState}
    {c r st en tl iu ct ca ri lv : ℕ} {tok : Bool} {id : ℕ} {call : TokenCall}
    (h : create_vesting s c r st en tl iu ct ca ri lv tok = .ok (s', id, call)) :
    id = s.nonce.getD 0
    ∧ s'.nonce = some (id + 1)
    ∧ s'.adminCount = s.adminCount
    ∧ s'.admins = s.admins
    ∧ s'.reserved = some (s.reserved.getD 0 + (iu + ca + lv))
    ∧ s'.vestingById = some (aset (s.vestingById.getD []) id
        ⟨r, st, en, 0, tl, ri, ct, iu, ca, lv, 0⟩) := by
  unfold create_vesting at h
  simp only [bindE_eq_ok, guardE_eq_ok, validateE_eq_ok, liftU_eq_ok, uAdd_eq_some,
    exists_and_left, exists_eq_left, exists_const, and_assoc,
    Except.ok.injEq, Prod.mk.injEq] at h
  obtain ⟨-, -, -, -, -, -, isRec, hisRec, rv, hrv, -, hs, hid, -⟩ := h
  subst hs
  subst hid
  simp

/-- What a successful `claim` does to the state. -/
theorem claim_ok {s s' : VMState} {c id now : ℕ} {tok : Bool}
    {amt : ℕ} {call : TokenCall}
    (h : claim s c id now tok = .ok (s', amt, call)) :
    ∃ w, alookup (s.vestingById.getD []) id = some w
      ∧ amt ≤ s.reserved.getD 0
      ∧ s'.reserved = some (s.reserved.getD 0 - amt)
      ∧ s'.vestingById = some (aset (s.vestingById.getD []) id
          { w with claimed_amount := w.claimed_amount + amt })
      ∧ s'.nonce = s.nonce ∧ s'.adminCount = s.adminCount
      ∧ s'.admins = s.admins := by
  unfold claim at h
  simp only [bindE_eq_ok, guardE_eq_ok, liftU_eq_ok, liftLookup_eq_ok,
    uSub_eq_some, uAdd_eq_some, exists_and_left, exists_eq_left, exists_const,
    and_assoc, Except.ok.injEq, Prod.mk.injEq] at h
  obtain ⟨w, hw, hrec, htl, vest, hvest, hle, hne, hadd, hres, htok, hs, hamt, hcall⟩ := h
  subst hs
  subst hamt
  exact ⟨w, hw, hres, rfl, rfl, rfl, rfl, rfl⟩

/-- What a successful `revoke_vesting` does to the state. -/
theorem revoke_vesting_ok {s s' : VMState} {c id now : ℕ} {forfeit : ℕ}
    (h : revoke_vesting s c id now = .ok (s', forfeit)) :
    ∃ w, alookup (s.vestingById.getD []) id = some w
      ∧ forfeit ≤ s.reserved.getD 0
      ∧ s'.reserved = some (s.reserved.getD 0 - forfeit)
      ∧ s'.vestingById = some (aset (s.vestingById.getD []) id
          { w with deactivation_timestamp := now })
      ∧ s'.nonce = s.nonce ∧ s'.adminCount = s.adminCount
      ∧ s'.admins = s.admins := by
  unfold revoke_vesting at h
  simp only [bindE_eq_ok, guardE_eq_ok, liftU_eq_ok, liftLookup_eq_ok,
    uSub_eq_some, exists_and_left, exists_eq_left, exists_const, and_assoc,
    Except.ok.injEq, Prod.mk.injEq] at h
  obtain ⟨-, w, hw, hdeact, finalAmt, hfinal, hne, vestedNow, hnow, hsub, hble, hs, hforf⟩ := h
  subst hs
  subst hforf
  exact ⟨w, hw, hble, rfl, rfl, rfl, rfl, rfl⟩

/-- The inductive invariant behind C4: the vesting map's keys are distinct,
every id at or above the nonce is unused (in the map and in the ghost
forfeitures), and `reserved` equals the ledger sum. -/
def goodG (g : GState) : Prop :=
  ((g.vm.vestingById.getD []).map Prod.fst).Nodup
  ∧ (∀ k, g.vm.nonce.getD 0 ≤ k →
      alookup (g.vm.vestingById.getD []) k = none ∧ alookup g.forfeited k = none)
  ∧ (g.vm.reserved.getD 0 : ℤ) = vsum g.forfeited (g.vm.vestingById.getD [])

theorem stepOp_good {g g' : GState} {o : Op} (hg : goodG g)
    (h : stepOp g o = some g') : goodG g' := by
  obtain ⟨hnd, hfresh, hsum⟩ := hg
  cases o with
  | opSetAdmin c a en =>
    simp only [stepOp] at h
    split at h
    · rename_i s' hsa
      simp only [Option.some.injEq] at h
      subst h
      obtain ⟨hres, hvb, hnonce, -⟩ := set_admin_ok hsa
      exact ⟨by simpa [hvb] using hnd,
             by simpa [hvb, hnonce] using hfresh,
             by simpa [hres, hvb] using hsum⟩
    · simp at h
  | opCreate c r st en tl iu ct ca ri lv tok =>
    simp only [stepOp] at h
    split at h
    · rename_i s' id call hc
      simp only [Option.some.injEq] at h
      subst h
      obtain ⟨hid, hnonce, -, -, hres, hvb⟩ := create_vesting_ok hc
      have hlook : alookup (g.vm.vestingById.getD []) id = none := by
        exact (hfresh id (by omega)).1
      have hforf : alookup g.forfeited id = none := (hfresh id (by omega)).2
      have hvb' : s'.vestingById.getD []
          = (g.vm.vestingById.getD []) ++ [(id, ⟨r, st, en, 0, tl, ri, ct, iu, ca, lv, 0⟩)] := by
        rw [hvb]
        simp [aset_fresh _ _ _ hlook]
      refine ⟨?_, ?_, ?_⟩
      · rw [hvb']
        simp only [List.map_append, List.map_cons, List.map_nil]
        rw [List.nodup_append]
        refine ⟨hnd, List.nodup_singleton _, ?_⟩
        intro x hx hx'
        simp only [List.mem_singleton] at hx'
        subst hx'
        exact ((alookup_eq_none _ _).mp hlook) hx
      · intro k hk
        rw [hnonce] at hk
        simp only [Option.getD_some] at hk
        constructor
        · rw [hvb']
          rw [← aset_fresh _ _ _ hlook]
          rw [alookup_aset_ne _ _ _ _ (by omega)]
          exact (hfresh k (by omega)).1
        · exact (hfresh k (by omega)).2
      · rw [hres, hvb']
        simp only [Option.getD_some]
        rw [vsum_append]
        have : vsum g.forfeited [(id, ⟨r, st, en, 0, tl, ri, ct, iu, ca, lv, 0⟩)]
            = (iu : ℤ) + ca + lv := by
          simp [vsum, vterm, hforf]
        rw [this]
        push_cast
        omega
    · simp at h
  | opClaim c id now tok =>
    simp only [stepOp] at h
    split at h
    · rename_i s' amt call hc
      simp only [Option.some.injEq] at h
      subst h
      obtain ⟨w, hw, hble, hres, hvb, hnonce, -⟩ := claim_ok hc
      have hidlt : id < g.vm.nonce.getD 0 := by
        by_contra hcon
        have := (hfresh id (by omega)).1
        rw [this] at hw
        exact Option.noConfusion hw
      refine ⟨?_, ?_, ?_⟩
      · rw [hvb]
        simpa [keys_aset_of_lookup_some _ _ _ _ hw] using hnd
      · intro k hk
        rw [hnonce] at hk
        constructor
        · rw [hvb]
          simp only [Option.getD_some]
          rw [alookup_aset_ne _ _ _ _ (by omega)]
          exact (hfresh k hk).1
        · exact (hfresh k hk).2
      · rw [hres, hvb]
        simp only [Option.getD_some]
        rw [vsum_aset_replace _ _ _ _ _ hw]
        have hterm : vterm g.forfeited (id, { w with claimed_amount := w.claimed_amount + amt })
            = vterm g.forfeited (id, w) - (amt : ℤ) := by
          simp [vterm]
          ring
        rw [hterm]
        rw [Nat.cast_sub hble]
        rw [hsum]
        ring
    · simp at h
  | opRevoke c id now =>
    simp only [stepOp] at h
    split at h
    · rename_i s' forfeit hc
      simp only [Option.some.injEq] at h
      subst h
      obtain ⟨w, hw, hble, hres, hvb, hnonce, -⟩ := revoke_vesting_ok hc
      have hidlt : id < g.vm.nonce.getD 0 := by
        by_contra hcon
        have := (hfresh id (by omega)).1
        rw [this] at hw
        exact Option.noConfusion hw
      have hnd' : ((s'.vestingById.getD []).map Prod.fst).Nodup := by
        rw [hvb]
        simpa [keys_aset_of_lookup_some _ _ _ _ hw] using hnd
      refine ⟨hnd', ?_, ?_⟩
      · intro k hk
        simp only at hk
        rw [hnonce] at hk
        constructor
        · rw [hvb]
          simp only [Option.getD_some]
          rw [alookup_aset_ne _ _ _ _ (by omega)]
          exact (hfresh k hk).1
        · rw [alookup_aset_ne _ _ _ _ (by omega)]
          exact (hfresh k hk).2
      · simp only
        rw [hres, hvb]
        simp only [Option.getD_some]
        have hweq : vterm g.forfeited (id, { w with deactivation_timestamp := now })
            = vterm g.forfeited (id, w) := by
          simp [vterm]
        have h1 : vsum g.forfeited
            (aset (g.vm.vestingById.getD []) id { w with deactivation_timestamp := now })
            = vsum g.forfeited (g.vm.vestingById.getD []) := by
          rw [vsum_aset_replace _ _ _ _ _ hw, hweq]
          ring
        have h2 := vsum_forf_aset g.forfeited
          (aset (g.vm.vestingById.getD []) id { w with deactivation_timestamp := now })
          id ((alookup g.forfeited id).getD 0 + forfeit)
          { w with deactivation_timestamp := now }
          (by simpa [keys_aset_of_lookup_some _ _ _ _ hw] using hnd)
          (alookup_aset_self _ _ _)
        rw [h2, h1, Nat.cast_sub hble, hsum]
        push_cast
        ring
    · simp at h

theorem execTrace_good {ops : List Op} {g g' : GState} (hg : goodG g)
    (h : execTrace g ops = some g') : goodG g' := by
  induction ops generalizing g with
  | nil =>
    simp only [execTrace] at h
    simp only [Option.some.injEq] at h
    subst h
    exact hg
  | cons o rest ih =>
    simp only [execTrace] at h
    split at h
    · rename_i g₁ hstep
      exact ih (stepOp_good hg hstep) h
    · simp at h

theorem initG_good (A T : ℕ) : goodG (initG A T) := by
  refine ⟨by simp [initG, initState], ?_, by simp [initG, initState, vsum]⟩
  intro k _
  simp [initG, initState, alookup]

/-- C4: after every successful operation sequence on a freshly initialized
Manager, `get_tokens_reserved_for_vesting` equals the sum over all stored
schedules of `initial_unlock + cliff_amount + linear_vest_amount -
claimed_amount - forfeited_on_revoke` (over ℤ; the ghost forfeiture of a
schedule accumulates exactly the amounts its revocations subtracted from
`reserved`): create adds exactly the schedule total, claim subtracts
exactly the claimable amount transferred out, and revoke subtracts exactly
the un-vested remainder. -/
theorem reserved_equals_ledger_sum (A T : ℕ) (ops : List Op) (g : GState)
    (h : execTrace (initG A T) ops = some g) :
    (get_tokens_reserved_for_vesting g.vm : ℤ)
      = vsum g.forfeited (g.vm.vestingById.getD []) :=
  (execTrace_good (initG_good A T) h).2.2

/-- C9: in every state reachable from a freshly initialized Manager by
successful operations, `get_admins_count` is at least 1: `init` sets it to
1, enabling increments it, and a disable is guarded by the last-admin
check. -/
theorem stepOp_count {g g' : GState} {o : Op}
    (hg : 1 ≤ get_admins_count g.vm) (h : stepOp g o = some g') :
    1 ≤ get_admins_count g'.vm := by
  cases o with
  | opSetAdmin c a en =>
    simp only [stepOp] at h
    split at h
    · rename_i s' hsa
      simp only [Option.some.injEq] at h
      subst h
      obtain ⟨-, -, -, hco⟩ := set_admin_ok hsa
      unfold get_admins_count at hg ⊢
      rcases hco with ⟨-, hc⟩ | ⟨-, hcnt, hc⟩ <;> simp only [hc, Option.getD_some] <;> omega
    · simp at h
  | opCreate c r st en tl iu ct ca ri lv tok =>
    simp only [stepOp] at h
    split at h
    · rename_i s' id call hc
      simp only [Option.some.injEq] at h
      subst h
      obtain ⟨-, -, hcount, -⟩ := create_vesting_ok hc
      unfold get_admins_count at hg ⊢
      simp only [hcount]
      exact hg
    · simp at h
  | opClaim c id now tok =>
    simp only [stepOp] at h
    split at h
    · rename_i s' amt call hc
      simp only [Option.some.injEq] at h
      subst h
      obtain ⟨w, -, -, -, -, -, hcount, -⟩ := claim_ok hc
      unfold get_admins_count at hg ⊢
      simp only [hcount]
      exact hg
    · simp at h
  | opRevoke c id now =>
    simp only [stepOp] at h
    split at h
    · rename_i s' forfeit hc
      simp only [Option.some.injEq] at h
      subst h
      obtain ⟨w, -, -, -, -, -, hcount, -⟩ := revoke_vesting_ok hc
      unfold get_admins_count at hg ⊢
      simp only [hcount]
      exact hg
    · simp at h

theorem execTrace_count {ops : List Op} {g g' : GState}
    (hg : 1 ≤ get_admins_count g.vm) (h : execTrace g ops = some g') :
    1 ≤ get_admins_count g'.vm := by
  induction ops generalizing g with
  | nil =>
    simp only [execTrace] at h
    simp only [Option.some.injEq] at h
    subst h
    exact hg
  | cons o rest ih =>
    simp only [execTrace] at h
    split at h
    · rename_i g₁ hstep
      exact ih (stepOp_count hg hstep) h
    · simp at h

/-- C9: in every state reachable from a freshly initialized Manager by
successful operations, `get_admins_count` is at least 1: `init` sets it to
1, enabling increments it, and a successful disable is guarded by the
last-admin check (`admin_count > 1`). -/
theorem admins_count_at_least_one (A T : ℕ) (ops : List Op) (g : GState)
    (h : execTrace (initG A T) ops = some g) :
    1 ≤ get_admins_count g.vm :=
  execTrace_count (by simp [initG, initState, get_admins_count]) h

/-- Final ghost state of the C4 witness trace: create a 1000-token linear
schedule, claim 500 at `t = 1500`, revoke at `t = 1600` (forfeiting 400). -/
def c4WitState : GState :=
  ⟨{ admins := some [(1, true)], adminCount := some 1, tokenAddress := some 3,
     reserved := some 100, recipientVestings := some (.vecV [0]),
     vestingById := some [(0, ⟨2, 1000, 2000, 1600, 0, 10, 0, 0, 0, 1000, 500⟩)],
     nonce := some 1, recipients := some [2] }, [(0, 400)]⟩

/-- Witness for `reserved_equals_ledger_sum` on a concrete
create/claim/revoke trace. -/
theorem reserved_equals_ledger_sum_witness :
    execTrace (initG 1 3) [.opCreate 1 2 1000 2000 0 0 0 0 10 1000 true,
      .opClaim 2 0 1500 true, .opRevoke 1 0 1600] = some c4WitState
    ∧ (get_tokens_reserved_for_vesting c4WitState.vm : ℤ)
      = vsum c4WitState.forfeited (c4WitState.vm.vestingById.getD []) :=
  ⟨by decide,
   reserved_equals_ledger_sum 1 3
     [.opCreate 1 2 1000 2000 0 0 0 0 10 1000 true,
      .opClaim 2 0 1500 true, .opRevoke 1 0 1600] c4WitState (by decide)⟩

/-- Final ghost state of the C9 witness trace: enable admin 2, then admin 2
disables admin 1. -/
def c9WitState : GState :=
  ⟨{ admins := some [(1, false), (2, true)], adminCount := some 1,
     tokenAddress := some 3, reserved := none, recipientVestings := none,
     vestingById := none, nonce := none, recipients := none }, []⟩

/-- Witness for `admins_count_at_least_one` on a concrete trace. -/
theorem admins_count_at_least_one_witness :
    execTrace (initG 1 3) [.opSetAdmin 1 2 true, .opSetAdmin 2 1 false]
      = some c9WitState
    ∧ 1 ≤ get_admins_count c9WitState.vm :=
  ⟨by decide,
   admins_count_at_least_one 1 3 [.opSetAdmin 1 2 true, .opSetAdmin 2 1 false]
     c9WitState (by decide)⟩

end StellarVesting
